import Mathlib

/-!
# Verification of `telegram_market_notifier_once.py`

A shallow embedding of the deduplication + ordering + rate-limited delivery
pipeline of `telegram_market_notifier_once.py`, together with theorems about
its behaviour.

Modelling conventions:

* Strings stay Lean `String`s; case-insensitive search and Python's `str.strip`
  are implemented character-by-character so that concrete instances evaluate in
  the kernel.
* `datetime` values are modelled as `Int` (a timestamp on a linear time axis).
  The external `dateutil` parser is an oracle `dtparse : String → Option Int`
  (`none` models a parse failure) and `datetime.now(...)` is an oracle `now : Int`.
* The network is external.  Provider outputs (`fetch_from_rss` per feed,
  `fetch_from_yfinance`) enter the model as parameters, and the Telegram sink
  `send_telegram_message` is an oracle `sendOk : Nat → Bool` giving the result
  of the k-th send call of the run (the call's outcome depends on transient
  network state, so it is indexed by call position, not by message content).
* Python's `set` of seen identifiers is modelled as a `List String` read up to
  membership; `set.add` appends the identifier.
* Python's `list.sort(key=...)` is a stable ascending sort; it is modelled by
  `List.mergeSort`, which is likewise stable.
-/

namespace StockNotifier

/-- An item as built by `fetch_from_rss` / `fetch_from_yfinance`
(dicts with keys `id`, `title`, `summary`, `link`, `source`, `published`).
A missing/None `id` is modelled as `""` (both are falsy in Python). -/
structure Item where
  id : String
  title : String
  summary : String
  link : String
  source : String
  published : String
deriving Repr, DecidableEq

/-- Lower-case a string character by character (the effect of
`re.IGNORECASE` on the ASCII keywords used by the program). -/
def lowerList (s : String) : List Char :=
  s.toList.map Char.toLower

/-- `prefixOf p l` is true iff `p` is a prefix of `l` (Boolean, executable). -/
def prefixOf : List Char → List Char → Bool
  | [], _ => true
  | _ :: _, [] => false
  | a :: as, b :: bs => a == b && prefixOf as bs

/-- `infixOf p l` is true iff `p` occurs contiguously inside `l`:
`re.search` with a literal (escaped) pattern. -/
def infixOf (pat : List Char) : List Char → Bool
  | [] => pat.isEmpty
  | b :: bs => prefixOf pat (b :: bs) || infixOf pat bs

/-- Case-insensitive occurrence of `k` in `text`: what
`re.compile(re.escape(k), re.IGNORECASE).search(text)` tests. -/
def containsCI (text k : String) : Bool :=
  infixOf (lowerList k) (lowerList text)

/-- The text searched by `matches_keywords` (line 167):
`" ".join([title, summary, source])`. -/
def keywordText (it : Item) : String :=
  it.title ++ " " ++ it.summary ++ " " ++ it.source

/-- `matches_keywords` (lines 164-168) together with the module-level pattern
construction (lines 34-35): empty keywords are dropped (`if k`); with no
remaining keyword the pattern is `None` and every item matches; otherwise the
pattern is a case-insensitive alternation of the escaped keywords. -/
def matches_keywords (keywords : List String) (it : Item) : Bool :=
  let escaped := keywords.filter (fun k => k != "")
  if escaped.isEmpty then true
  else escaped.any (fun k => containsCI (keywordText it) k)

/-- `parse_time_safe` (lines 127-131): `dateutil.parser.parse` on success,
`datetime.now(...)` on any parse failure. -/
def parse_time_safe (dtparse : String → Option Int) (now : Int) (s : String) : Int :=
  match dtparse s with
  | some t => t
  | none => now

/-- Python slicing `s[:n]`. -/
def pyTruncate (s : String) (n : Nat) : String :=
  ⟨s.toList.take n⟩

/-- The identifier back-fill in `main` (lines 177-178 and 186-187):
`if not it.get("id"): it["id"] = (it.get("link") or it.get("title"))[:300]`. -/
def derive_id (it : Item) : Item :=
  if it.id = "" then
    { it with id := pyTruncate (if it.link = "" then it.title else it.link) 300 }
  else it

/-- One provider's worth of the accumulation loop in `main`
(lines 175-182 for each RSS feed, lines 185-191 for yfinance):
back-fill the id, drop items whose id is in the loaded seen set,
keep the ones that match the keywords. -/
def collectCandidates (seen : List String) (keywords : List String) :
    List Item → List Item
  | [] => []
  | it :: rest =>
    let d := derive_id it
    if d.id ∈ seen then collectCandidates seen keywords rest
    else if matches_keywords keywords d then d :: collectCandidates seen keywords rest
    else collectCandidates seen keywords rest

/-- `new_items` after the two accumulation loops of `main` (lines 170-191):
candidates from the RSS feeds in configured feed order, then the
yfinance candidates. -/
def gather (seen keywords : List String) (rssFeeds : List (List Item))
    (tickerItems : List Item) : List Item :=
  (rssFeeds.map (collectCandidates seen keywords)).flatten
    ++ collectCandidates seen keywords tickerItems

/-- `new_items.sort(key=lambda x: parse_time_safe(x.get("published", "")))`
(line 194): stable ascending sort on the parsed publication time. -/
def sortCandidates (dtparse : String → Option Int) (now : Int)
    (items : List Item) : List Item :=
  items.mergeSort fun a b =>
    decide (parse_time_safe dtparse now a.published
      ≤ parse_time_safe dtparse now b.published)

/-- The state at the end of the run: the in-memory seen set (line 210 persists
it), the `sent` counter, and — for specification purposes — the list of items
for which the sink was invoked, in invocation order. -/
structure LoopState where
  seen : List String
  sent : Nat
  attempts : List Item
deriving Repr, DecidableEq

/-- The delivery loop of `main` (lines 197-208).  `k` is the number of sink
calls made so far (the index into the `sendOk` oracle); `seen` and `sent` are
the mutable state.  Each iteration first checks the cap (`if sent >=
MAX_PER_RUN: break`), then invokes the sink; on success the item's id is added
to the seen set and `sent` is incremented, on failure the state is unchanged
and the loop continues. -/
def sendLoop (maxPerRun : Nat) (sendOk : Nat → Bool) :
    List Item → Nat → List String → Nat → LoopState
  | [], _, seen, sent => ⟨seen, sent, []⟩
  | it :: rest, k, seen, sent =>
    if maxPerRun ≤ sent then ⟨seen, sent, []⟩
    else if sendOk k then
      let st := sendLoop maxPerRun sendOk rest (k + 1) (seen ++ [it.id]) (sent + 1)
      { st with attempts := it :: st.attempts }
    else
      let st := sendLoop maxPerRun sendOk rest (k + 1) seen sent
      { st with attempts := it :: st.attempts }

/-- `main` (lines 170-211): load (the loaded seen set enters as `seen0`),
accumulate candidates, sort, deliver.  The returned `LoopState.seen` is what
`save_seen` persists at line 210. -/
def runPipeline (seen0 keywords : List String) (rssFeeds : List (List Item))
    (tickerItems : List Item) (dtparse : String → Option Int) (now : Int)
    (maxPerRun : Nat) (sendOk : Nat → Bool) : LoopState :=
  sendLoop maxPerRun sendOk
    (sortCandidates dtparse now (gather seen0 keywords rssFeeds tickerItems))
    0 seen0 0

/-- Specification-side description (from the spec's wording, to be relocated
against the loop): the identifiers of exactly those attempted items whose send
returned success, `k` being the index of the first attempt. -/
def specSuccessIds (sendOk : Nat → Bool) : Nat → List Item → List String
  | _, [] => []
  | k, it :: rest =>
    if sendOk k then it.id :: specSuccessIds sendOk (k + 1) rest
    else specSuccessIds sendOk (k + 1) rest

/-- Python's `str.strip()` (whitespace trim on both ends), as applied to the
credential environment variables at lines 13-14. -/
def stripStr (s : String) : String :=
  ⟨((s.toList.dropWhile Char.isWhitespace).reverse.dropWhile Char.isWhitespace).reverse⟩

/-- Externally observable side effects of the process, for the start-up
contract: reads/writes of the seen-state file and network calls. -/
inductive Effect where
  | netCall : Effect
  | stateWrite : Effect
  | stateRead : Effect
deriving Repr, DecidableEq

/-- Exit code and effect trace of one process invocation. -/
structure ProcResult where
  exitCode : Nat
  effects : List Effect
deriving Repr, DecidableEq

/-- The whole process (module level, lines 13-56, then `main`):
`TELEGRAM_BOT_TOKEN` / `TELEGRAM_CHAT_ID` are stripped (lines 13-14); if
either is empty the process raises `SystemExit(1)` at lines 50-52, before the
seen-file initialisation at lines 55-56 and before any network call.
Otherwise the missing state file is created, `main` runs (one state read, one
network fetch per RSS feed and per ticker, one sink call per delivery attempt
— the per-attempt translation calls inside `build_msg` are additional network
traffic on the same branch and are not separately tracked), the seen set is
persisted and the process exits 0. -/
def process (rawToken rawChatId : String) (dbExists : Bool)
    (seen0 keywords : List String) (rssFeeds : List (List Item))
    (tickers : List String) (tickerItems : List Item)
    (dtparse : String → Option Int) (now : Int)
    (maxPerRun : Nat) (sendOk : Nat → Bool) : ProcResult :=
  if stripStr rawToken = "" ∨ stripStr rawChatId = "" then
    ⟨1, []⟩
  else
    let st := runPipeline seen0 keywords rssFeeds tickerItems dtparse now maxPerRun sendOk
    ⟨0, (if dbExists then [] else [Effect.stateWrite])
      ++ Effect.stateRead
        :: (rssFeeds.map fun _ => Effect.netCall)
      ++ (tickers.map fun _ => Effect.netCall)
      ++ (st.attempts.map fun _ => Effect.netCall)
      ++ [Effect.stateWrite]⟩

/-! ## Structural lemmas about the delivery loop -/

/-- After the loop, the seen set is the initial one extended by exactly the
identifiers of the successful attempts, and `sent` counts those successes. -/
theorem sendLoop_seen_sent (m : Nat) (ok : Nat → Bool) (items : List Item) :
    ∀ (k : Nat) (seen : List String) (sent : Nat),
      (sendLoop m ok items k seen sent).seen
          = seen ++ specSuccessIds ok k (sendLoop m ok items k seen sent).attempts
        ∧ (sendLoop m ok items k seen sent).sent
          = sent + (specSuccessIds ok k (sendLoop m ok items k seen sent).attempts).length := by
  induction items with
  | nil => intro k seen sent; simp [sendLoop, specSuccessIds]
  | cons it rest ih =>
    intro k seen sent
    by_cases hm : m ≤ sent
    · simp [sendLoop, hm, specSuccessIds]
    · by_cases hok : ok k
      · rcases e : sendLoop m ok rest (k + 1) (seen ++ [it.id]) (sent + 1) with ⟨s, n, a⟩
        have ih' := ih (k + 1) (seen ++ [it.id]) (sent + 1)
        rw [e] at ih'
        simp at ih'
        simp only [sendLoop, if_neg hm, if_pos hok, e]
        simp only [specSuccessIds, if_pos hok]
        refine ⟨?_, ?_⟩
        · simp [ih'.1]
        · simp; omega
      · rcases e : sendLoop m ok rest (k + 1) seen sent with ⟨s, n, a⟩
        have ih' := ih (k + 1) seen sent
        rw [e] at ih'
        simp at ih'
        simp only [sendLoop, if_neg hm, if_neg hok, e]
        simp only [specSuccessIds, if_neg hok]
        exact ⟨ih'.1, ih'.2⟩

/-- The attempted items form a prefix of the (sorted) candidate list. -/
theorem sendLoop_attempts_isPrefix (m : Nat) (ok : Nat → Bool) (items : List Item) :
    ∀ (k : Nat) (seen : List String) (sent : Nat),
      (sendLoop m ok items k seen sent).attempts <+: items := by
  induction items with
  | nil => intro k seen sent; simp [sendLoop]
  | cons it rest ih =>
    intro k seen sent
    by_cases hm : m ≤ sent
    · simp [sendLoop, hm]
    · by_cases hok : ok k
      · obtain ⟨t, ht⟩ := ih (k + 1) (seen ++ [it.id]) (sent + 1)
        simp only [sendLoop, if_neg hm, if_pos hok]
        exact ⟨t, by rw [List.cons_append, ht]⟩
      · obtain ⟨t, ht⟩ := ih (k + 1) seen sent
        simp only [sendLoop, if_neg hm, if_neg hok]
        exact ⟨t, by rw [List.cons_append, ht]⟩

/-- The `sent` counter never exceeds the cap. -/
theorem sendLoop_sent_le (m : Nat) (ok : Nat → Bool) (items : List Item) :
    ∀ (k : Nat) (seen : List String) (sent : Nat),
      sent ≤ m → (sendLoop m ok items k seen sent).sent ≤ m := by
  induction items with
  | nil => intro k seen sent h; simpa [sendLoop] using h
  | cons it rest ih =>
    intro k seen sent h
    by_cases hm : m ≤ sent
    · simpa [sendLoop, hm] using h
    · by_cases hok : ok k
      · have := ih (k + 1) (seen ++ [it.id]) (sent + 1) (by omega)
        simpa [sendLoop, hm, hok] using this
      · have := ih (k + 1) seen sent h
        simpa [sendLoop, hm, hok] using this

/-- When every sink call succeeds, the loop delivers exactly the first
`m - sent` candidates. -/
theorem sendLoop_all_ok (m : Nat) (ok : Nat → Bool) (hok : ∀ i, ok i = true) (items : List Item) :
    ∀ (k : Nat) (seen : List String) (sent : Nat),
      sent ≤ m →
      sendLoop m ok items k seen sent
        = ⟨seen ++ (items.take (m - sent)).map Item.id,
            min m (sent + items.length), items.take (m - sent)⟩ := by
  induction items with
  | nil =>
    intro k seen sent h
    simp [sendLoop]
    omega
  | cons it rest ih =>
    intro k seen sent h
    by_cases hm : m ≤ sent
    · have hms : m = sent := by omega
      simp [sendLoop, hm, ← hms, LoopState.mk.injEq]
    · have htake : (it :: rest).take (m - sent) = it :: rest.take (m - (sent + 1)) := by
        rw [show m - sent = (m - (sent + 1)) + 1 by omega, List.take_succ_cons]
      rw [htake]
      have ih' := ih (k + 1) (seen ++ [it.id]) (sent + 1) (by omega)
      simp only [sendLoop, if_neg hm, hok k, if_pos, ih']
      simp only [LoopState.mk.injEq, List.map_cons, List.length_cons]
      refine ⟨by simp, by omega, trivial⟩

/-- The sort comparator is transitive. -/
theorem sortLe_trans (dtparse : String → Option Int) (now : Int) :
    ∀ (a b c : Item),
      decide (parse_time_safe dtparse now a.published
        ≤ parse_time_safe dtparse now b.published) →
      decide (parse_time_safe dtparse now b.published
        ≤ parse_time_safe dtparse now c.published) →
      decide (parse_time_safe dtparse now a.published
        ≤ parse_time_safe dtparse now c.published) := by
  intro a b c hab hbc
  simp only [decide_eq_true_eq] at *
  omega

/-- The sort comparator is total. -/
theorem sortLe_total (dtparse : String → Option Int) (now : Int) :
    ∀ (a b : Item),
      decide (parse_time_safe dtparse now a.published
          ≤ parse_time_safe dtparse now b.published)
        || decide (parse_time_safe dtparse now b.published
          ≤ parse_time_safe dtparse now a.published) := by
  intro a b
  simp only [Bool.or_eq_true, decide_eq_true_eq]
  omega

/-- Any two positions of a list, in order, give a two-element sublist. -/
theorem pair_get_sublist {α : Type} (l : List α) :
    ∀ (i j : Nat) (hi : i < l.length) (hj : j < l.length), i < j →
      List.Sublist [l.get ⟨i, hi⟩, l.get ⟨j, hj⟩] l := by
  induction l with
  | nil => intro i j hi _ _; simp at hi
  | cons a t ih =>
    intro i j hi hj hij
    match i, j with
    | 0, 0 => omega
    | 0, j' + 1 =>
      exact List.Sublist.cons₂ a
        (List.singleton_sublist.mpr (t.get_mem j' (Nat.lt_of_succ_lt_succ hj)))
    | i' + 1, 0 => omega
    | i' + 1, j' + 1 =>
      exact List.Sublist.cons a
        (ih i' j' (by simpa using hi) (by simpa using hj) (by omega))

/-! ## Claims -/

/-- **C1**: after a run the seen set equals the loaded seen set extended by
exactly the identifiers of the items whose send succeeded, and `sent` counts
those successes; a failed send leaves the identifier out and the loop
continues.  In particular, with 3 candidates and the sink failing on the 2nd,
the run ends with the identifiers of the 1st and 3rd seen, the sent counter at
2, and all three candidates attempted. -/
theorem C1_seen_updates_on_success_only
    (seen0 keywords : List String) (rssFeeds : List (List Item))
    (tickerItems : List Item) (dtparse : String → Option Int) (now : Int)
    (maxPerRun : Nat) (sendOk : Nat → Bool) :
    ((runPipeline seen0 keywords rssFeeds tickerItems dtparse now maxPerRun sendOk).seen
        = seen0 ++ specSuccessIds sendOk 0
            (runPipeline seen0 keywords rssFeeds tickerItems dtparse now maxPerRun sendOk).attempts
      ∧ (runPipeline seen0 keywords rssFeeds tickerItems dtparse now maxPerRun sendOk).sent
          = (specSuccessIds sendOk 0
              (runPipeline seen0 keywords rssFeeds tickerItems dtparse now maxPerRun sendOk).attempts).length)
    ∧ runPipeline [] []
        [[⟨"i1", "a", "", "", "", "t1"⟩, ⟨"i2", "b", "", "", "", "t2"⟩,
          ⟨"i3", "c", "", "", "", "t3"⟩]] []
        (fun s => if s = "t1" then some 1 else if s = "t2" then some 2
          else if s = "t3" then some 3 else none)
        99 8 (fun k => !(k == 1))
      = ⟨["i1", "i3"], 2,
          [⟨"i1", "a", "", "", "", "t1"⟩, ⟨"i2", "b", "", "", "", "t2"⟩,
            ⟨"i3", "c", "", "", "", "t3"⟩]⟩ := by
  constructor
  · have h := sendLoop_seen_sent maxPerRun sendOk
      (sortCandidates dtparse now (gather seen0 keywords rssFeeds tickerItems)) 0 seen0 0
    exact ⟨h.1, by simpa using h.2⟩
  · simp [runPipeline, gather, collectCandidates, derive_id, matches_keywords,
      sortCandidates, List.mergeSort, List.merge, List.splitInTwo,
      parse_time_safe, sendLoop]

/-- **C2 (amended)**: the sent counter never exceeds `max_per_run`; and when
every sink call succeeds and more than `max_per_run` candidates pass
filtering, exactly `max_per_run` items are sent — the attempted items are
exactly the first `max_per_run` sorted candidates and only their identifiers
are added to the seen set. -/
theorem C2_cap_respected
    (seen0 keywords : List String) (rssFeeds : List (List Item))
    (tickerItems : List Item) (dtparse : String → Option Int) (now : Int)
    (maxPerRun : Nat) (sendOk : Nat → Bool) :
    (runPipeline seen0 keywords rssFeeds tickerItems dtparse now maxPerRun sendOk).sent
        ≤ maxPerRun
    ∧ ((∀ i, sendOk i = true) →
        maxPerRun < (gather seen0 keywords rssFeeds tickerItems).length →
        runPipeline seen0 keywords rssFeeds tickerItems dtparse now maxPerRun sendOk
          = ⟨seen0 ++ ((sortCandidates dtparse now
                (gather seen0 keywords rssFeeds tickerItems)).take maxPerRun).map Item.id,
              maxPerRun,
              (sortCandidates dtparse now
                (gather seen0 keywords rssFeeds tickerItems)).take maxPerRun⟩) := by
  constructor
  · exact sendLoop_sent_le maxPerRun sendOk _ 0 seen0 0 (Nat.zero_le _)
  · intro hok hlen
    have h := sendLoop_all_ok maxPerRun sendOk hok
      (sortCandidates dtparse now (gather seen0 keywords rssFeeds tickerItems)) 0 seen0 0
      (Nat.zero_le _)
    rw [runPipeline, h]
    have hlen' : maxPerRun
        < (sortCandidates dtparse now (gather seen0 keywords rssFeeds tickerItems)).length := by
      simpa [sortCandidates, List.length_mergeSort] using hlen
    simp only [Nat.sub_zero, Nat.zero_add, LoopState.mk.injEq]
    exact ⟨trivial, by omega, trivial⟩

/-- **C2, counterexample to the unamended claim**: 3 candidates pass
filtering, `max_per_run = 2`, but the sink fails every call, so 0 items — not
exactly `max_per_run = 2` — are sent. -/
theorem C2_counterexample :
    (gather [] []
        [[⟨"i1", "a", "", "", "", "t1"⟩, ⟨"i2", "b", "", "", "", "t2"⟩,
          ⟨"i3", "c", "", "", "", "t3"⟩]] []).length = 3
    ∧ (runPipeline [] []
        [[⟨"i1", "a", "", "", "", "t1"⟩, ⟨"i2", "b", "", "", "", "t2"⟩,
          ⟨"i3", "c", "", "", "", "t3"⟩]] []
        (fun s => if s = "t1" then some 1 else if s = "t2" then some 2
          else if s = "t3" then some 3 else none)
        99 2 (fun _ => false)).sent = 0
    ∧ (runPipeline [] []
        [[⟨"i1", "a", "", "", "", "t1"⟩, ⟨"i2", "b", "", "", "", "t2"⟩,
          ⟨"i3", "c", "", "", "", "t3"⟩]] []
        (fun s => if s = "t1" then some 1 else if s = "t2" then some 2
          else if s = "t3" then some 3 else none)
        99 2 (fun _ => false)).sent ≠ 2 := by
  refine ⟨by decide, ?_, ?_⟩ <;>
    simp [runPipeline, gather, collectCandidates, derive_id, matches_keywords,
      sortCandidates, List.mergeSort, List.merge, List.splitInTwo,
      parse_time_safe, sendLoop]

/-- Witness for `C2_cap_respected`: with 3 all-successful candidates and
`max_per_run = 2`, exactly 2 are sent. -/
theorem C2_cap_respected_witness :
    (runPipeline [] []
        [[⟨"i1", "a", "", "", "", "t1"⟩, ⟨"i2", "b", "", "", "", "t2"⟩,
          ⟨"i3", "c", "", "", "", "t3"⟩]] []
        (fun s => if s = "t1" then some 1 else if s = "t2" then some 2
          else if s = "t3" then some 3 else none)
        99 2 (fun _ => true)).sent ≤ 2
    ∧ runPipeline [] []
        [[⟨"i1", "a", "", "", "", "t1"⟩, ⟨"i2", "b", "", "", "", "t2"⟩,
          ⟨"i3", "c", "", "", "", "t3"⟩]] []
        (fun s => if s = "t1" then some 1 else if s = "t2" then some 2
          else if s = "t3" then some 3 else none)
        99 2 (fun _ => true)
      = ⟨["i1", "i2"], 2,
          [⟨"i1", "a", "", "", "", "t1"⟩, ⟨"i2", "b", "", "", "", "t2"⟩]⟩ := by
  have h := C2_cap_respected [] []
    [[⟨"i1", "a", "", "", "", "t1"⟩, ⟨"i2", "b", "", "", "", "t2"⟩,
      ⟨"i3", "c", "", "", "", "t3"⟩]] []
    (fun s => if s = "t1" then some 1 else if s = "t2" then some 2
      else if s = "t3" then some 3 else none)
    99 2 (fun _ => true)
  refine ⟨h.1, ?_⟩
  rw [h.2 (fun i => rfl) (by decide)]
  simp [sortCandidates, gather, collectCandidates, derive_id, matches_keywords,
    List.mergeSort, List.merge, List.splitInTwo, parse_time_safe]

/-- **C3**: delivery attempts are made in ascending order of the parsed
publication timestamp; an item whose timestamp fails to parse gets the current
wall-clock time as its sort key; and for parseable timestamps T1 < T2 < T3
arriving in scrambled provider order, the sink receives the items in the order
T1, T2, T3 when all are under the cap. -/
theorem C3_delivery_in_timestamp_order
    (seen0 keywords : List String) (rssFeeds : List (List Item))
    (tickerItems : List Item) (dtparse : String → Option Int) (now : Int)
    (maxPerRun : Nat) (sendOk : Nat → Bool) :
    ((runPipeline seen0 keywords rssFeeds tickerItems dtparse now maxPerRun sendOk).attempts.Pairwise
        (fun a b => parse_time_safe dtparse now a.published
          ≤ parse_time_safe dtparse now b.published)
      ∧ ∀ s, dtparse s = none → parse_time_safe dtparse now s = now)
    ∧ runPipeline [] []
        [[⟨"i3", "c", "", "", "", "t3"⟩, ⟨"i1", "a", "", "", "", "t1"⟩,
          ⟨"i2", "b", "", "", "", "t2"⟩]] []
        (fun s => if s = "t1" then some 1 else if s = "t2" then some 2
          else if s = "t3" then some 3 else none)
        99 8 (fun _ => true)
      = ⟨["i1", "i2", "i3"], 3,
          [⟨"i1", "a", "", "", "", "t1"⟩, ⟨"i2", "b", "", "", "", "t2"⟩,
            ⟨"i3", "c", "", "", "", "t3"⟩]⟩ := by
  refine ⟨⟨?_, ?_⟩, ?_⟩
  · have hsorted :
        (List.mergeSort (gather seen0 keywords rssFeeds tickerItems) fun a b =>
          decide (parse_time_safe dtparse now a.published
            ≤ parse_time_safe dtparse now b.published)).Pairwise
          (fun a b =>
            decide (parse_time_safe dtparse now a.published
              ≤ parse_time_safe dtparse now b.published) = true) :=
      List.sorted_mergeSort (sortLe_trans dtparse now) (sortLe_total dtparse now)
        (gather seen0 keywords rssFeeds tickerItems)
    have hpre := sendLoop_attempts_isPrefix maxPerRun sendOk
      (sortCandidates dtparse now (gather seen0 keywords rssFeeds tickerItems)) 0 seen0 0
    have := hsorted.sublist hpre.sublist
    exact this.imp (fun h => by simpa using h)
  · intro s hs
    simp [parse_time_safe, hs]
  · simp [runPipeline, gather, collectCandidates, derive_id, matches_keywords,
      sortCandidates, List.mergeSort, List.merge, List.splitInTwo,
      parse_time_safe, sendLoop]

/-- Witness for `C3_delivery_in_timestamp_order`: an unparseable timestamp is
keyed at the wall-clock value, evaluated at a concrete input. -/
theorem C3_delivery_in_timestamp_order_witness :
    parse_time_safe (fun _ => none) 7 "not a date" = 7 := by
  exact (C3_delivery_in_timestamp_order [] [] [] [] (fun _ => none) 7 8
    (fun _ => true)).1.2 "not a date" rfl

/-- **C10**: candidates accumulate RSS feeds first (in configured feed order)
and ticker items after, and the sort is stable: two candidates with equal
parsed timestamps keep their accumulation order in the sorted list the
delivery loop iterates. -/
theorem C10_stable_sort_keeps_accumulation_order
    (seen0 keywords : List String) (rssFeeds : List (List Item))
    (tickerItems : List Item) (dtparse : String → Option Int) (now : Int)
    (i j : Nat)
    (hi : i < (gather seen0 keywords rssFeeds tickerItems).length)
    (hj : j < (gather seen0 keywords rssFeeds tickerItems).length)
    (hij : i < j)
    (heq : parse_time_safe dtparse now
        ((gather seen0 keywords rssFeeds tickerItems).get ⟨i, hi⟩).published
      = parse_time_safe dtparse now
        ((gather seen0 keywords rssFeeds tickerItems).get ⟨j, hj⟩).published) :
    gather seen0 keywords rssFeeds tickerItems
      = (rssFeeds.map (collectCandidates seen0 keywords)).flatten
        ++ collectCandidates seen0 keywords tickerItems
    ∧ List.Sublist
        [(gather seen0 keywords rssFeeds tickerItems).get ⟨i, hi⟩,
          (gather seen0 keywords rssFeeds tickerItems).get ⟨j, hj⟩]
        (sortCandidates dtparse now (gather seen0 keywords rssFeeds tickerItems)) := by
  refine ⟨rfl, ?_⟩
  exact List.pair_sublist_mergeSort
    (sortLe_trans dtparse now) (sortLe_total dtparse now)
    (by simp only [List.get_eq_getElem] at heq; simp [heq])
    (pair_get_sublist _ i j hi hj hij)

/-- Witness for `C10_stable_sort_keeps_accumulation_order`: an RSS candidate
and a ticker candidate with the same timestamp stay in RSS-then-ticker order
after sorting. -/
theorem C10_stable_sort_keeps_accumulation_order_witness :
    List.Sublist
      [(gather [] [] [[⟨"x", "a", "", "", "", "t1"⟩]] [⟨"y", "b", "", "", "", "t1"⟩]).get
          ⟨0, by decide⟩,
        (gather [] [] [[⟨"x", "a", "", "", "", "t1"⟩]] [⟨"y", "b", "", "", "", "t1"⟩]).get
          ⟨1, by decide⟩]
      (sortCandidates (fun s => if s = "t1" then some 1 else none) 99
        (gather [] [] [[⟨"x", "a", "", "", "", "t1"⟩]] [⟨"y", "b", "", "", "", "t1"⟩])) :=
  (C10_stable_sort_keeps_accumulation_order [] [] [[⟨"x", "a", "", "", "", "t1"⟩]]
    [⟨"y", "b", "", "", "", "t1"⟩] (fun s => if s = "t1" then some 1 else none) 99
    0 1 (by decide) (by decide) (by decide) (by decide)).2

/-- If every candidate a raw list produced against `seen` has its identifier
in the larger seen set `seen'`, the raw list produces no candidate against
`seen'`. -/
theorem collectCandidates_eq_nil (seen seen' keywords : List String) (raw : List Item)
    (hsub : ∀ x, x ∈ seen → x ∈ seen')
    (hcand : ∀ it, it ∈ collectCandidates seen keywords raw → it.id ∈ seen') :
    collectCandidates seen' keywords raw = [] := by
  induction raw with
  | nil => rfl
  | cons it rest ih =>
    by_cases hseen : (derive_id it).id ∈ seen
    · simp only [collectCandidates]
      rw [if_pos (hsub _ hseen)]
      apply ih
      intro x hx
      apply hcand
      simp only [collectCandidates, if_pos hseen]
      exact hx
    · by_cases hmatch : matches_keywords keywords (derive_id it)
      · have hid : (derive_id it).id ∈ seen' := by
          apply hcand
          simp only [collectCandidates, if_neg hseen, if_pos hmatch]
          exact List.mem_cons_self _ _
        simp only [collectCandidates]
        rw [if_pos hid]
        apply ih
        intro x hx
        apply hcand
        simp only [collectCandidates, if_neg hseen, if_pos hmatch]
        exact List.mem_cons_of_mem _ hx
      · have hrec : collectCandidates seen' keywords rest = [] := by
          apply ih
          intro x hx
          apply hcand
          simp only [collectCandidates, if_neg hseen, if_neg hmatch]
          exact hx
        by_cases h2 : (derive_id it).id ∈ seen'
        · simp only [collectCandidates]
          rw [if_pos h2]
          exact hrec
        · simp only [collectCandidates]
          rw [if_neg h2, if_neg hmatch]
          exact hrec

/-- **C4 (amended)**: if the first run delivers every candidate (every sink
call succeeds and at most `max_per_run` candidates pass filtering), a second
run over the same provider outputs, loading the seen set the first run
persisted, attempts nothing and sends zero items — whatever its sink does. -/
theorem C4_second_run_sends_nothing
    (seen0 keywords : List String) (rssFeeds : List (List Item))
    (tickerItems : List Item) (dtparse : String → Option Int) (now now2 : Int)
    (maxPerRun : Nat) (sendOk2 : Nat → Bool)
    (hlen : (gather seen0 keywords rssFeeds tickerItems).length ≤ maxPerRun) :
    (runPipeline
        (runPipeline seen0 keywords rssFeeds tickerItems dtparse now maxPerRun
          (fun _ => true)).seen
        keywords rssFeeds tickerItems dtparse now2 maxPerRun sendOk2).sent = 0
    ∧ (runPipeline
        (runPipeline seen0 keywords rssFeeds tickerItems dtparse now maxPerRun
          (fun _ => true)).seen
        keywords rssFeeds tickerItems dtparse now2 maxPerRun sendOk2).attempts = [] := by
  have hsortlen : (sortCandidates dtparse now (gather seen0 keywords rssFeeds tickerItems)).length
      ≤ maxPerRun := by
    simpa [sortCandidates, List.length_mergeSort] using hlen
  have h1 : (runPipeline seen0 keywords rssFeeds tickerItems dtparse now maxPerRun
      (fun _ => true)).seen
      = seen0 ++ (sortCandidates dtparse now
          (gather seen0 keywords rssFeeds tickerItems)).map Item.id := by
    rw [runPipeline, sendLoop_all_ok _ _ (fun _ => rfl) _ 0 seen0 0 (Nat.zero_le _)]
    simp [List.take_of_length_le hsortlen]
  have hidseen : ∀ it, it ∈ gather seen0 keywords rssFeeds tickerItems →
      it.id ∈ (runPipeline seen0 keywords rssFeeds tickerItems dtparse now maxPerRun
        (fun _ => true)).seen := by
    intro it hit
    rw [h1]
    refine List.mem_append_right _ ?_
    exact List.mem_map_of_mem _ (by simpa [sortCandidates, List.mem_mergeSort] using hit)
  have hsub : ∀ x, x ∈ seen0 →
      x ∈ (runPipeline seen0 keywords rssFeeds tickerItems dtparse now maxPerRun
        (fun _ => true)).seen := by
    intro x hx
    rw [h1]
    exact List.mem_append_left _ hx
  have hgather : gather
      (runPipeline seen0 keywords rssFeeds tickerItems dtparse now maxPerRun
        (fun _ => true)).seen
      keywords rssFeeds tickerItems = [] := by
    rw [gather]
    rw [List.append_eq_nil]
    constructor
    · rw [List.flatten_eq_nil_iff]
      intro ls hls
      rw [List.mem_map] at hls
      obtain ⟨feed, hfeed, rfl⟩ := hls
      apply collectCandidates_eq_nil seen0 _ keywords feed hsub
      intro x hx
      apply hidseen
      rw [gather]
      refine List.mem_append_left _ ?_
      rw [List.mem_flatten]
      exact ⟨collectCandidates seen0 keywords feed, List.mem_map_of_mem _ hfeed, hx⟩
    · apply collectCandidates_eq_nil seen0 _ keywords tickerItems hsub
      intro x hx
      apply hidseen
      rw [gather]
      exact List.mem_append_right _ hx
  rw [runPipeline, hgather]
  simp [sortCandidates, sendLoop]

/-- **C4, counterexample to the unamended claim**: the sink fails the only
send of the first run, so its identifier is not persisted and the second run
delivers it — the second run sends 1 item, not 0. -/
theorem C4_counterexample :
    (runPipeline
        (runPipeline [] [] [[⟨"x", "a", "", "", "", "t1"⟩]] []
          (fun s => if s = "t1" then some 1 else none) 99 8 (fun _ => false)).seen
        [] [[⟨"x", "a", "", "", "", "t1"⟩]] []
        (fun s => if s = "t1" then some 1 else none) 99 8 (fun _ => true)).sent = 1
    ∧ (runPipeline
        (runPipeline [] [] [[⟨"x", "a", "", "", "", "t1"⟩]] []
          (fun s => if s = "t1" then some 1 else none) 99 8 (fun _ => false)).seen
        [] [[⟨"x", "a", "", "", "", "t1"⟩]] []
        (fun s => if s = "t1" then some 1 else none) 99 8 (fun _ => true)).sent ≠ 0 := by
  constructor <;>
    simp [runPipeline, gather, collectCandidates, derive_id, matches_keywords,
      sortCandidates, List.mergeSort, parse_time_safe, sendLoop]

/-- Witness for `C4_second_run_sends_nothing`, at a one-item provider output
with the default cap. -/
theorem C4_second_run_sends_nothing_witness :
    (runPipeline
        (runPipeline [] [] [[⟨"x", "a", "", "", "", "t1"⟩]] []
          (fun s => if s = "t1" then some 1 else none) 99 8 (fun _ => true)).seen
        [] [[⟨"x", "a", "", "", "", "t1"⟩]] []
        (fun s => if s = "t1" then some 1 else none) 100 8 (fun _ => true)).sent = 0 :=
  (C4_second_run_sends_nothing [] [] [[⟨"x", "a", "", "", "", "t1"⟩]] []
    (fun s => if s = "t1" then some 1 else none) 99 100 8 (fun _ => true)
    (by decide)).1

/-- Truncating a non-empty string to 300 characters is non-empty. -/
theorem pyTruncate_ne_empty (s : String) (hs : s ≠ "") : pyTruncate s 300 ≠ "" := by
  intro h
  apply hs
  have hl : s.toList.take 300 = [] := congrArg String.data h
  rw [List.take_eq_nil_iff] at hl
  rcases hl with hl | hl
  · omega
  · cases s with
    | mk data => exact congrArg String.mk (by simpa [String.toList] using hl)

/-- **C5 (amended)**: an item with an empty identifier field gets
`(link or title)` truncated to 300 characters as identifier; the derivation
depends only on the link and title (so two fetch cycles of the same content
derive the same identifier); the derived identifier is non-empty whenever the
item has a non-empty link or title, and items with a non-empty identifier are
untouched. -/
theorem C5_derived_identifier (it it' : Item) :
    (it.id = "" → (derive_id it).id
        = pyTruncate (if it.link = "" then it.title else it.link) 300)
    ∧ (it.id = "" → it'.id = "" → it.link = it'.link → it.title = it'.title →
        (derive_id it).id = (derive_id it').id)
    ∧ (it.id = "" → it.link ≠ "" ∨ it.title ≠ "" → (derive_id it).id ≠ "")
    ∧ (it.id ≠ "" → (derive_id it).id = it.id) := by
  refine ⟨?_, ?_, ?_, ?_⟩
  · intro h; simp [derive_id, h]
  · intro h h' hl ht; simp [derive_id, h, h', hl, ht]
  · intro h hne
    simp only [derive_id, h, if_pos]
    rcases Decidable.em (it.link = "") with hl | hl
    · simp only [hl, if_pos]
      exact pyTruncate_ne_empty _ (by tauto)
    · simp only [if_neg hl]
      exact pyTruncate_ne_empty _ hl
  · intro h; simp [derive_id, h]

/-- **C5, counterexample to the unamended claim**: a raw item with empty
identifier, link and title derives the empty identifier, which then enters
the deduplication check and, after a successful send, the Seen-Set. -/
theorem C5_counterexample :
    (derive_id ⟨"", "", "sum", "", "src", ""⟩).id = ""
    ∧ (runPipeline [] [] [[⟨"", "", "sum", "", "src", ""⟩]] []
        (fun _ => none) 99 8 (fun _ => true)).seen = [""] := by
  constructor
  · decide
  · simp [runPipeline, gather, collectCandidates, derive_id, pyTruncate,
      matches_keywords, sortCandidates, List.mergeSort, sendLoop]

/-- Witness for `C5_derived_identifier` at a concrete item: identifier derived
from the link, deterministically and non-empty. -/
theorem C5_derived_identifier_witness :
    (derive_id ⟨"", "t", "s", "http://a", "src", "p"⟩).id
        = pyTruncate "http://a" 300
    ∧ (derive_id ⟨"", "t", "s", "http://a", "src", "p"⟩).id
        = (derive_id ⟨"", "t", "s2", "http://a", "src2", "p2"⟩).id
    ∧ (derive_id ⟨"", "t", "s", "http://a", "src", "p"⟩).id ≠ "" := by
  have h := C5_derived_identifier ⟨"", "t", "s", "http://a", "src", "p"⟩
    ⟨"", "t", "s2", "http://a", "src2", "p2"⟩
  refine ⟨?_, h.2.1 rfl rfl rfl rfl, h.2.2.1 rfl (Or.inl (by decide))⟩
  have := h.1 rfl
  simpa using this

/-- **C6**: the keyword filter is fail-open — an empty configured keyword list
accepts every item — and with (non-empty) configured keywords it accepts an
item iff some keyword occurs case-insensitively in the concatenation of the
item's title, summary and source label. -/
theorem C6_keyword_filter (keywords : List String) (it : Item) :
    (keywords = [] → matches_keywords keywords it = true)
    ∧ (keywords ≠ [] → (∀ k, k ∈ keywords → k ≠ "") →
        (matches_keywords keywords it = true
          ↔ ∃ k, k ∈ keywords ∧ containsCI (keywordText it) k = true)) := by
  constructor
  · intro h
    subst h
    rfl
  · intro hne hk
    have hfilter : keywords.filter (fun k => k != "") = keywords := by
      rw [List.filter_eq_self]
      intro a ha
      simpa using hk a ha
    rw [matches_keywords]
    simp only [hfilter]
    rcases keywords with _ | ⟨k, ks⟩
    · exact absurd rfl hne
    · simp [List.any_eq_true]

/-- Witness for `C6_keyword_filter`: the empty list accepts an off-topic item,
and with the keyword list `["NSE"]` a title containing "nse" matches. -/
theorem C6_keyword_filter_witness :
    matches_keywords [] ⟨"1", "weather", "", "", "blog", ""⟩ = true
    ∧ (matches_keywords ["NSE"] ⟨"2", "nse rally", "", "", "feed", ""⟩ = true
        ↔ ∃ k, k ∈ ["NSE"]
          ∧ containsCI (keywordText ⟨"2", "nse rally", "", "", "feed", ""⟩) k = true) := by
  refine ⟨(C6_keyword_filter [] _).1 rfl, ?_⟩
  exact (C6_keyword_filter ["NSE"] _).2 (by decide) (by decide)

/-- **C7**: with either stripped credential empty the process exits with
status 1 having performed no network call and no state access; with both
present a normal run completes with status 0. -/
theorem C7_missing_credentials
    (rawToken rawChatId : String) (dbExists : Bool)
    (seen0 keywords : List String) (rssFeeds : List (List Item))
    (tickers : List String) (tickerItems : List Item)
    (dtparse : String → Option Int) (now : Int)
    (maxPerRun : Nat) (sendOk : Nat → Bool) :
    ((stripStr rawToken = "" ∨ stripStr rawChatId = "") →
      process rawToken rawChatId dbExists seen0 keywords rssFeeds tickers
        tickerItems dtparse now maxPerRun sendOk = ⟨1, []⟩)
    ∧ (stripStr rawToken ≠ "" → stripStr rawChatId ≠ "" →
      (process rawToken rawChatId dbExists seen0 keywords rssFeeds tickers
        tickerItems dtparse now maxPerRun sendOk).exitCode = 0) := by
  constructor
  · intro h
    rw [process, if_pos h]
  · intro h1 h2
    rw [process, if_neg (by tauto)]

/-- Witness for `C7_missing_credentials`: a whitespace-only token exits 1 with
no effects; real credentials exit 0. -/
theorem C7_missing_credentials_witness :
    process "  " "chat" true [] [] [] [] [] (fun _ => none) 0 8 (fun _ => true)
      = ⟨1, []⟩
    ∧ (process "tok" "chat" true [] [] [] [] [] (fun _ => none) 0 8
        (fun _ => true)).exitCode = 0 := by
  constructor
  · exact (C7_missing_credentials "  " "chat" true [] [] [] [] []
      (fun _ => none) 0 8 (fun _ => true)).1 (Or.inl (by decide))
  · exact (C7_missing_credentials "tok" "chat" true [] [] [] [] []
      (fun _ => none) 0 8 (fun _ => true)).2 (by decide) (by decide)

/-- **C9**: deduplication is checked only against the seen set loaded at run
start — a provider output with two distinct items of equal identifier, not in
the loaded seen set, has both survive deduplication and the sink invoked for
both, delivering the same identifier twice in one run. -/
theorem C9_duplicate_identifier_delivered_twice :
    gather [] [] [[⟨"X", "first", "", "", "", "t1"⟩, ⟨"X", "second", "", "", "", "t2"⟩]] []
      = [⟨"X", "first", "", "", "", "t1"⟩, ⟨"X", "second", "", "", "", "t2"⟩]
    ∧ runPipeline [] []
        [[⟨"X", "first", "", "", "", "t1"⟩, ⟨"X", "second", "", "", "", "t2"⟩]] []
        (fun s => if s = "t1" then some 1 else if s = "t2" then some 2 else none)
        99 8 (fun _ => true)
      = ⟨["X", "X"], 2,
          [⟨"X", "first", "", "", "", "t1"⟩, ⟨"X", "second", "", "", "", "t2"⟩]⟩ := by
  constructor
  · decide
  · simp [runPipeline, gather, collectCandidates, derive_id, matches_keywords,
      sortCandidates, List.mergeSort, List.merge, List.splitInTwo,
      parse_time_safe, sendLoop]

end StockNotifier
